import Mathlib

/-!
Shallow embedding of `pylearn2/costs/mlp/missing_target_cost.py`
(`MissingTargetCost`): a supervised cost that zeroes the per-element cost
at every position where the target equals the sentinel `-1`, then reduces
the masked cost matrix to a scalar through the model's own reduction.

Tensors are embedded as matrices of rationals (`List (List ℚ)`).  The
model is a record of the capabilities the cost uses (`fprop`,
`dropout_fprop`, the final layer's `cost_matrix`, `cost_from_cost_matrix`,
and the space/source accessors); each operation that can raise an error in
the framework returns `Except Err`.  `expr` additionally records a trace
of which model operations were invoked, so that claims about call counts
and routing (standard vs dropout forward pass) are statable.
-/

namespace MissingTarget

/-- Matrices of rationals stand in for theano tensors. -/
abbrev Matrix := List (List ℚ)

/-- Keyword arguments forwarded to `dropout_fprop` (a Python dict
`name ↦ value`). -/
abbrev DropoutArgs := List (String × ℚ)

/-- Modelled from the spec: `pylearn2.space.Space` is not under `src/`.
Per the spec a space describes the expected shape of a batch component;
we record the expected number of columns. -/
structure Space where
  dim : Nat
deriving DecidableEq

/-- Modelled from the spec: a matrix validates against a space when every
row has the declared width. -/
def Space.validate (s : Space) (m : Matrix) : Bool :=
  m.all fun row => row.length == s.dim

/-- Modelled from the spec: `pylearn2.space.CompositeSpace` is not under
`src/`; it pairs component spaces. -/
structure CompositeSpace where
  components : List Space
deriving DecidableEq

/-- Modelled from the spec: a composite space over two components
validates a data tuple componentwise; a mismatch raises
`DataSpecMismatch` in the caller (`expr`). -/
def CompositeSpace.validate (cs : CompositeSpace) (data : Matrix × Matrix) : Bool :=
  match cs.components with
  | [s₀, s₁] => s₀.validate data.1 && s₁.validate data.2
  | _ => false

/-- Errors: the locally raised data-spec mismatch, and arbitrary errors
raised inside the model's own operations. -/
inductive Err where
  | dataSpecMismatch : Err
  | modelError : String → Err
deriving DecidableEq

/-- Model operations invoked by `expr`, recorded as an execution trace. -/
inductive Event where
  | fprop : Event
  | dropout_fprop : Event
  | cost_matrix : Event
  | reduce : Event
deriving DecidableEq

/-- The model capabilities used by `MissingTargetCost`:
`get_input_space` / `get_output_space` / `get_input_source` /
`get_target_source` accessors, the forward passes `fprop` and
`dropout_fprop`, the final layer's `cost_matrix` (embedding
`model.layers[-1].cost_matrix`), and the reduction
`cost_from_cost_matrix`.  Fallible operations return `Except Err`. -/
structure Model where
  get_input_space : Space
  get_output_space : Space
  get_input_source : String
  get_target_source : String
  fprop : Matrix → Except Err Matrix
  dropout_fprop : Matrix → DropoutArgs → Except Err Matrix
  cost_matrix : Matrix → Matrix → Except Err Matrix
  cost_from_cost_matrix : Matrix → Except Err ℚ

/-- `MissingTargetCost.__init__(self, dropout_args=None)`: the only state
captured by `self.__dict__.update(locals()); del self.self` is
`dropout_args`. -/
structure MissingTargetCost where
  dropout_args : Option DropoutArgs := none
deriving DecidableEq

/-- Python truthiness of `self.dropout_args`: `None` and the empty dict
are falsy; a nonempty dict is truthy. -/
def dictTruthy : Option DropoutArgs → Bool
  | none => false
  | some args => !args.isEmpty

/-- `T.neq(y, -1)` as a 0/1 factor. -/
def neqMask (y : ℚ) : ℚ := if y = -1 then 0 else 1

/-- One row of `costMatrix *= T.neq(Y, -1)`. -/
def maskRow (cs ys : List ℚ) : List ℚ :=
  List.zipWith (fun c y => c * neqMask y) cs ys

/-- `costMatrix *= T.neq(Y, -1)`: elementwise product of the cost matrix
with the indicator of `Y ≠ -1`. -/
def maskMul (cm Y : Matrix) : Matrix :=
  List.zipWith maskRow cm Y

/-- `MissingTargetCost.get_data_specs(self, model)`: the composite space
of the model's input and output spaces, paired with the input and target
source labels. -/
def MissingTargetCost.get_data_specs (_c : MissingTargetCost) (model : Model) :
    CompositeSpace × (String × String) :=
  (CompositeSpace.mk [model.get_input_space, model.get_output_space],
   (model.get_input_source, model.get_target_source))

/-- The forward step of `expr`:
`if self.dropout_args: Y_hat = model.dropout_fprop(X, **self.dropout_args)`
`else: Y_hat = model.fprop(X)`, with the invoked operation recorded. -/
def MissingTargetCost.forwardPass (c : MissingTargetCost) (model : Model) (X : Matrix) :
    List Event × Except Err Matrix :=
  if dictTruthy c.dropout_args then
    ([Event.dropout_fprop], model.dropout_fprop X (c.dropout_args.getD []))
  else
    ([Event.fprop], model.fprop X)

/-- The tail of `expr` after `Y_hat` is available:
`costMatrix = model.layers[-1].cost_matrix(Y, Y_hat)`;
`costMatrix *= T.neq(Y, -1)`;
`return model.cost_from_cost_matrix(costMatrix)`.
Errors raised by the model abort the computation and propagate. -/
def afterForward (model : Model) (Y : Matrix)
    (fwd : List Event × Except Err Matrix) : List Event × Except Err ℚ :=
  match fwd with
  | (ev, Except.error e) => (ev, Except.error e)
  | (ev, Except.ok Y_hat) =>
    match model.cost_matrix Y Y_hat with
    | Except.error e => (ev ++ [Event.cost_matrix], Except.error e)
    | Except.ok cm =>
      let costMatrix := maskMul cm Y
      match model.cost_from_cost_matrix costMatrix with
      | Except.error e => (ev ++ [Event.cost_matrix, Event.reduce], Except.error e)
      | Except.ok r => (ev ++ [Event.cost_matrix, Event.reduce], Except.ok r)

/-- `MissingTargetCost.expr(self, model, data)`:
validate `data` against the declared data specs (a mismatch raises
`DataSpecMismatch` before any model operation runs), unpack `(X, Y)`,
compute `Y_hat` through the truthiness-routed forward pass, mask the cost
matrix and reduce.  The first component is the trace of model operations
invoked. -/
def MissingTargetCost.expr (c : MissingTargetCost) (model : Model)
    (data : Matrix × Matrix) : List Event × Except Err ℚ :=
  let specs := c.get_data_specs model
  if specs.1.validate data then
    afterForward model data.2 (c.forwardPass model data.1)
  else
    ([], Except.error Err.dataSpecMismatch)

/-- State-passing form of `expr`: the method body contains no assignment
to `self`, so the outgoing component state equals the incoming one. -/
def MissingTargetCost.exprSt (c : MissingTargetCost) (model : Model)
    (data : Matrix × Matrix) :
    (List Event × Except Err ℚ) × MissingTargetCost :=
  (c.expr model data, c)

/-- State-passing form of `get_data_specs`: no assignment to `self`. -/
def MissingTargetCost.get_data_specsSt (c : MissingTargetCost) (model : Model) :
    (CompositeSpace × (String × String)) × MissingTargetCost :=
  (c.get_data_specs model, c)

/-- Entry `m[i][j]` of a matrix, when it exists. -/
def entry (m : Matrix) (i j : Nat) : Option ℚ :=
  (m[i]?).bind fun r => r[j]?

/-- Two matrices have the same shape when their row lengths agree. -/
def sameShape (a b : Matrix) : Prop :=
  a.map List.length = b.map List.length

instance (a b : Matrix) : Decidable (sameShape a b) := by
  unfold sameShape; infer_instance

/-- No entry of the target equals the sentinel `-1`. -/
def noMissing (Y : Matrix) : Bool :=
  Y.all fun r => r.all fun y => decide (y ≠ -1)

/-- Every entry of the target equals the sentinel `-1`. -/
def allMissing (Y : Matrix) : Bool :=
  Y.all fun r => r.all fun y => decide (y = -1)

/-- The all-zero matrix of the same shape as `m`. -/
def zeroLike (m : Matrix) : Matrix :=
  m.map fun r => r.map fun _ => 0

/-- A concrete model used to instantiate theorems: identity forward pass,
shifted dropout forward pass, cost matrix returning the target, summing
reduction. -/
def demoModel : Model where
  get_input_space := ⟨2⟩
  get_output_space := ⟨2⟩
  get_input_source := "features"
  get_target_source := "targets"
  fprop := fun X => Except.ok X
  dropout_fprop := fun X _ => Except.ok (X.map fun r => r.map fun q => q + 1)
  cost_matrix := fun Y _ => Except.ok Y
  cost_from_cost_matrix := fun cm => Except.ok (cm.map List.sum).sum

theorem maskRow_cons (c : ℚ) (cs : List ℚ) (y : ℚ) (ys : List ℚ) :
    maskRow (c :: cs) (y :: ys) = (c * neqMask y) :: maskRow cs ys := rfl

theorem maskMul_cons (c : List ℚ) (cm : Matrix) (y : List ℚ) (Yt : Matrix) :
    maskMul (c :: cm) (y :: Yt) = maskRow c y :: maskMul cm Yt := rfl

theorem maskRow_entry (cs : List ℚ) : ∀ (ys : List ℚ) (j : Nat),
    cs.length = ys.length → ys[j]? = some (-1) →
    (maskRow cs ys)[j]? = some 0 := by
  induction cs with
  | nil =>
    intro ys j hlen hy
    cases ys with
    | nil => simp at hy
    | cons y ys => simp at hlen
  | cons c cs ih =>
    intro ys j hlen hy
    cases ys with
    | nil => simp at hy
    | cons y ys =>
      cases j with
      | zero =>
        simp only [List.getElem?_cons_zero, Option.some_inj] at hy
        simp [maskRow_cons, neqMask, hy]
      | succ j =>
        simp only [List.getElem?_cons_succ] at hy
        simp only [maskRow_cons, List.getElem?_cons_succ]
        exact ih ys j (by simpa using hlen) hy

theorem sameShape_cons {c : List ℚ} {cm Y : Matrix} (h : sameShape (c :: cm) Y) :
    ∃ y Yt, Y = y :: Yt ∧ c.length = y.length ∧ sameShape cm Yt := by
  cases Y with
  | nil => simp [sameShape] at h
  | cons y Yt =>
    refine ⟨y, Yt, rfl, ?_, ?_⟩
    · simpa [sameShape] using congrArg (fun l => l.headD 0) h
    · simp only [sameShape, List.map_cons, List.cons.injEq] at h
      exact h.2

theorem maskMul_entry (cm : Matrix) : ∀ (Y : Matrix) (i j : Nat),
    sameShape cm Y → entry Y i j = some (-1) →
    entry (maskMul cm Y) i j = some 0 := by
  induction cm with
  | nil =>
    intro Y i j hs hY
    cases Y with
    | nil => simp [entry] at hY
    | cons y Yt => simp [sameShape] at hs
  | cons c cm ih =>
    intro Y i j hs hY
    obtain ⟨y, Yt, rfl, hlen, hrest⟩ := sameShape_cons hs
    cases i with
    | zero =>
      simp only [entry, maskMul_cons, List.getElem?_cons_zero,
        Option.bind_some] at hY ⊢
      exact maskRow_entry c y j hlen hY
    | succ i =>
      simp only [entry, maskMul_cons, List.getElem?_cons_succ] at hY ⊢
      exact ih Yt i j hrest hY

theorem maskRow_id (cs : List ℚ) : ∀ ys : List ℚ,
    cs.length = ys.length → (∀ y ∈ ys, ¬ y = -1) → maskRow cs ys = cs := by
  induction cs with
  | nil => intro ys _ _; rfl
  | cons c cs ih =>
    intro ys hlen hno
    cases ys with
    | nil => simp at hlen
    | cons y ys =>
      have hy : ¬ y = -1 := hno y (by simp)
      rw [maskRow_cons, neqMask, if_neg hy, mul_one,
        ih ys (by simpa using hlen) (fun z hz => hno z (by simp [hz]))]

theorem maskMul_id (cm : Matrix) : ∀ Y : Matrix,
    sameShape cm Y → noMissing Y = true → maskMul cm Y = cm := by
  induction cm with
  | nil => intro Y _ _; rfl
  | cons c cm ih =>
    intro Y hs hno
    obtain ⟨y, Yt, rfl, hlen, hrest⟩ := sameShape_cons hs
    simp only [noMissing, List.all_cons, Bool.and_eq_true, List.all_eq_true,
      decide_eq_true_eq] at hno
    show maskRow c y :: maskMul cm Yt = c :: cm
    rw [maskRow_id c y hlen hno.1, ih Yt hrest]
    simp only [noMissing, List.all_eq_true, decide_eq_true_eq]
    intro r hr z hz
    exact hno.2 r hr z hz

theorem maskRow_zero (cs : List ℚ) : ∀ ys : List ℚ,
    cs.length = ys.length → (∀ y ∈ ys, y = -1) →
    maskRow cs ys = ys.map fun _ => 0 := by
  induction cs with
  | nil =>
    intro ys hlen _
    cases ys with
    | nil => rfl
    | cons y ys => simp at hlen
  | cons c cs ih =>
    intro ys hlen hall
    cases ys with
    | nil => simp at hlen
    | cons y ys =>
      have hy : y = -1 := hall y (by simp)
      rw [List.map_cons, maskRow_cons, neqMask, if_pos hy, mul_zero,
        ih ys (by simpa using hlen) (fun z hz => hall z (by simp [hz]))]

theorem maskMul_zero (cm : Matrix) : ∀ Y : Matrix,
    sameShape cm Y → allMissing Y = true → maskMul cm Y = zeroLike Y := by
  induction cm with
  | nil =>
    intro Y hs _
    cases Y with
    | nil => rfl
    | cons y Yt => simp [sameShape] at hs
  | cons c cm ih =>
    intro Y hs hall
    obtain ⟨y, Yt, rfl, hlen, hrest⟩ := sameShape_cons hs
    simp only [allMissing, List.all_cons, Bool.and_eq_true, List.all_eq_true,
      decide_eq_true_eq] at hall
    show maskRow c y :: maskMul cm Yt = (y.map fun _ => 0) :: zeroLike Yt
    rw [maskRow_zero c y hlen hall.1, ih Yt hrest]
    simp only [allMissing, List.all_eq_true, decide_eq_true_eq]
    intro r hr z hz
    exact hall.2 r hr z hz

theorem expr_of_validate (c : MissingTargetCost) (model : Model)
    (data : Matrix × Matrix)
    (hv : (c.get_data_specs model).1.validate data = true) :
    c.expr model data = afterForward model data.2 (c.forwardPass model data.1) := by
  simp [MissingTargetCost.expr, hv]

theorem afterForward_snd (model : Model) (Y : Matrix) (ev : List Event)
    (Y_hat cm : Matrix) (hc : model.cost_matrix Y Y_hat = Except.ok cm) :
    (afterForward model Y (ev, Except.ok Y_hat)).2
      = model.cost_from_cost_matrix (maskMul cm Y) := by
  simp only [afterForward, hc]
  cases h : model.cost_from_cost_matrix (maskMul cm Y) <;> simp [h]

/-- C1: whenever the batch validates, the forward pass produces `Y_hat`
and the final layer produces the raw cost matrix `cm` of the target's
shape, `expr` returns the model's reduction of the elementwise product of
`cm` with the mask `Y ≠ -1`, and every masked-cost entry at a position
where `Y` equals `-1` is exactly `0`. -/
theorem expr_masks_cost_matrix (c : MissingTargetCost) (model : Model)
    (X Y : Matrix)
    (hv : (c.get_data_specs model).1.validate (X, Y) = true)
    (ev : List Event) (Y_hat cm : Matrix)
    (hf : c.forwardPass model X = (ev, Except.ok Y_hat))
    (hc : model.cost_matrix Y Y_hat = Except.ok cm)
    (hs : sameShape cm Y) :
    (c.expr model (X, Y)).2 = model.cost_from_cost_matrix (maskMul cm Y) ∧
    ∀ i j, entry Y i j = some (-1) → entry (maskMul cm Y) i j = some 0 := by
  constructor
  · rw [expr_of_validate c model (X, Y) hv]
    show (afterForward model Y (c.forwardPass model X)).2 = _
    rw [hf]
    exact afterForward_snd model Y ev Y_hat cm hc
  · intro i j hij
    exact maskMul_entry cm Y i j hs hij

/-- Witness for C1 at a concrete model and batch with one missing
target. -/
theorem expr_masks_cost_matrix_witness :
    (MissingTargetCost.expr ⟨none⟩ demoModel ([[1, 2]], [[1, -1]])).2
      = demoModel.cost_from_cost_matrix (maskMul [[1, -1]] [[1, -1]]) ∧
    entry (maskMul [[1, -1]] [[1, -1]]) 0 1 = some 0 := by
  have h := expr_masks_cost_matrix ⟨none⟩ demoModel [[1, 2]] [[1, -1]]
    (by decide) [Event.fprop] [[1, 2]] [[1, -1]] rfl rfl (by decide)
  exact ⟨h.1, h.2 0 1 rfl⟩

/-- C4: on a validating batch whose target has no `-1` entry, masking is
the identity, so `expr` returns the reduction of the raw, unmasked cost
matrix. -/
theorem expr_noMissing_unmasked (c : MissingTargetCost) (model : Model)
    (X Y : Matrix)
    (hv : (c.get_data_specs model).1.validate (X, Y) = true)
    (ev : List Event) (Y_hat cm : Matrix)
    (hf : c.forwardPass model X = (ev, Except.ok Y_hat))
    (hc : model.cost_matrix Y Y_hat = Except.ok cm)
    (hs : sameShape cm Y) (hn : noMissing Y = true) :
    (c.expr model (X, Y)).2 = model.cost_from_cost_matrix cm := by
  rw [expr_of_validate c model (X, Y) hv]
  show (afterForward model Y (c.forwardPass model X)).2 = _
  rw [hf, afterForward_snd model Y ev Y_hat cm hc, maskMul_id cm Y hs hn]

/-- Witness for C4 at a concrete model and batch with no missing
targets. -/
theorem expr_noMissing_unmasked_witness :
    (MissingTargetCost.expr ⟨none⟩ demoModel ([[1, 2]], [[3, 4]])).2
      = demoModel.cost_from_cost_matrix [[3, 4]] :=
  expr_noMissing_unmasked ⟨none⟩ demoModel [[1, 2]] [[3, 4]] (by decide)
    [Event.fprop] [[1, 2]] [[3, 4]] rfl rfl (by decide) (by decide)

/-- C5: on a validating batch whose target is entirely `-1`, the masked
cost matrix is the zero matrix, so `expr` returns the reduction of the
zero matrix. -/
theorem expr_allMissing_zero (c : MissingTargetCost) (model : Model)
    (X Y : Matrix)
    (hv : (c.get_data_specs model).1.validate (X, Y) = true)
    (ev : List Event) (Y_hat cm : Matrix)
    (hf : c.forwardPass model X = (ev, Except.ok Y_hat))
    (hc : model.cost_matrix Y Y_hat = Except.ok cm)
    (hs : sameShape cm Y) (ha : allMissing Y = true) :
    maskMul cm Y = zeroLike Y ∧
    (c.expr model (X, Y)).2 = model.cost_from_cost_matrix (zeroLike Y) := by
  have hz := maskMul_zero cm Y hs ha
  refine ⟨hz, ?_⟩
  rw [expr_of_validate c model (X, Y) hv]
  show (afterForward model Y (c.forwardPass model X)).2 = _
  rw [hf, afterForward_snd model Y ev Y_hat cm hc, hz]

/-- Witness for C5 at a concrete model and an all-missing batch. -/
theorem expr_allMissing_zero_witness :
    maskMul [[-1, -1]] [[-1, -1]] = zeroLike [[-1, -1]] ∧
    (MissingTargetCost.expr ⟨none⟩ demoModel ([[1, 2]], [[-1, -1]])).2
      = demoModel.cost_from_cost_matrix (zeroLike [[-1, -1]]) :=
  expr_allMissing_zero ⟨none⟩ demoModel [[1, 2]] [[-1, -1]] (by decide)
    [Event.fprop] [[1, 2]] [[-1, -1]] rfl rfl (by decide) (by decide)

/-- A model every operation of which fails, used to instantiate the
error-propagation theorem. -/
def failModel : Model where
  get_input_space := ⟨2⟩
  get_output_space := ⟨2⟩
  get_input_source := "features"
  get_target_source := "targets"
  fprop := fun _ => Except.error (Err.modelError "fprop failed")
  dropout_fprop := fun _ _ => Except.error (Err.modelError "dropout failed")
  cost_matrix := fun _ _ => Except.error (Err.modelError "cost failed")
  cost_from_cost_matrix := fun _ => Except.error (Err.modelError "reduce failed")

/-- C2 counterexample: a dropout configuration that is supplied but empty
routes through the standard forward pass, so "supplied at construction"
does not imply the dropout-aware pass is used. -/
theorem expr_dropout_routing_counterexample :
    (MissingTargetCost.mk (some [])).dropout_args.isSome = true ∧
    Event.dropout_fprop ∉
      (MissingTargetCost.expr ⟨some []⟩ demoModel ([[1, 2]], [[3, 4]])).1 ∧
    (MissingTargetCost.expr ⟨some []⟩ demoModel ([[1, 2]], [[3, 4]])).1
      = [Event.fprop, Event.cost_matrix, Event.reduce] := by
  decide

/-- C2 (amended): on a validating batch, a dropout configuration that is
supplied and nonempty routes the forward pass through `dropout_fprop`
with the stored configuration forwarded verbatim; an absent or empty
configuration routes through the standard `fprop`. -/
theorem expr_dropout_routing (c : MissingTargetCost) (model : Model)
    (X Y : Matrix)
    (hv : (c.get_data_specs model).1.validate (X, Y) = true) :
    (∀ args, c.dropout_args = some args → args ≠ [] →
      c.expr model (X, Y)
        = afterForward model Y
            ([Event.dropout_fprop], model.dropout_fprop X args)) ∧
    ((c.dropout_args = none ∨ c.dropout_args = some []) →
      c.expr model (X, Y)
        = afterForward model Y ([Event.fprop], model.fprop X)) := by
  constructor
  · intro args ha hne
    rw [expr_of_validate c model (X, Y) hv]
    show afterForward model Y (c.forwardPass model X) = _
    cases args with
    | nil => exact absurd rfl hne
    | cons a as => simp [MissingTargetCost.forwardPass, dictTruthy, ha]
  · intro h
    rw [expr_of_validate c model (X, Y) hv]
    show afterForward model Y (c.forwardPass model X) = _
    rcases h with h | h <;> simp [MissingTargetCost.forwardPass, dictTruthy, h]

/-- Witness for the amended C2 at a concrete nonempty configuration. -/
theorem expr_dropout_routing_witness :
    MissingTargetCost.expr ⟨some [("include_prob", 1)]⟩ demoModel
        ([[1, 2]], [[3, 4]])
      = afterForward demoModel [[3, 4]]
          ([Event.dropout_fprop],
            demoModel.dropout_fprop [[1, 2]] [("include_prob", 1)]) :=
  (expr_dropout_routing ⟨some [("include_prob", 1)]⟩ demoModel [[1, 2]]
    [[3, 4]] (by decide)).1 [("include_prob", 1)] rfl (by decide)

/-- C3: when the batch fails validation against the declared composite
space, `expr` raises `DataSpecMismatch` with an empty operation trace, so
neither `fprop` nor `dropout_fprop` was invoked (forward call count is
zero). -/
theorem expr_invalid_batch (c : MissingTargetCost) (model : Model)
    (data : Matrix × Matrix)
    (hv : (c.get_data_specs model).1.validate data = false) :
    c.expr model data = ([], Except.error Err.dataSpecMismatch) ∧
    (c.expr model data).1.count Event.fprop = 0 ∧
    (c.expr model data).1.count Event.dropout_fprop = 0 := by
  have he : c.expr model data = ([], Except.error Err.dataSpecMismatch) := by
    simp [MissingTargetCost.expr, hv]
  exact ⟨he, by rw [he]; rfl, by rw [he]; rfl⟩

/-- Witness for C3 at a batch whose input width disagrees with the
declared input space. -/
theorem expr_invalid_batch_witness :
    MissingTargetCost.expr ⟨none⟩ demoModel ([[1, 2, 3]], [[3, 4]])
      = ([], Except.error Err.dataSpecMismatch) :=
  (expr_invalid_batch ⟨none⟩ demoModel ([[1, 2, 3]], [[3, 4]])
    (by decide)).1

/-- C6: `get_data_specs` returns the composite space of the model's input
space followed by its output space, paired with the input and target
source labels; it is pure and leaves the component state unchanged. -/
theorem get_data_specs_spec (c : MissingTargetCost) (model : Model) :
    c.get_data_specs model
      = (CompositeSpace.mk [model.get_input_space, model.get_output_space],
         (model.get_input_source, model.get_target_source)) ∧
    (c.get_data_specsSt model).2 = c :=
  ⟨rfl, rfl⟩

/-- C7: an error raised by the forward pass (standard or dropout), by the
cost-matrix computation, or by the reduction propagates through `expr`
unchanged — it is never caught, wrapped, or replaced. -/
theorem expr_propagates_model_errors (c : MissingTargetCost) (model : Model)
    (X Y : Matrix)
    (hv : (c.get_data_specs model).1.validate (X, Y) = true) :
    (∀ ev e, c.forwardPass model X = (ev, Except.error e) →
      (c.expr model (X, Y)).2 = Except.error e) ∧
    (∀ ev Y_hat e, c.forwardPass model X = (ev, Except.ok Y_hat) →
      model.cost_matrix Y Y_hat = Except.error e →
      (c.expr model (X, Y)).2 = Except.error e) ∧
    (∀ ev Y_hat cm e, c.forwardPass model X = (ev, Except.ok Y_hat) →
      model.cost_matrix Y Y_hat = Except.ok cm →
      model.cost_from_cost_matrix (maskMul cm Y) = Except.error e →
      (c.expr model (X, Y)).2 = Except.error e) := by
  refine ⟨?_, ?_, ?_⟩
  · intro ev e hf
    rw [expr_of_validate c model (X, Y) hv]
    show (afterForward model Y (c.forwardPass model X)).2 = _
    rw [hf]
    rfl
  · intro ev Y_hat e hf hc
    rw [expr_of_validate c model (X, Y) hv]
    show (afterForward model Y (c.forwardPass model X)).2 = _
    rw [hf]
    simp [afterForward, hc]
  · intro ev Y_hat cm e hf hc hr
    rw [expr_of_validate c model (X, Y) hv]
    show (afterForward model Y (c.forwardPass model X)).2 = _
    rw [hf]
    simp [afterForward, hc, hr]

/-- Witness for C7: a model whose forward pass fails makes `expr` return
that very error. -/
theorem expr_propagates_model_errors_witness :
    (MissingTargetCost.expr ⟨none⟩ failModel ([[1, 2]], [[3, 4]])).2
      = Except.error (Err.modelError "fprop failed") :=
  (expr_propagates_model_errors ⟨none⟩ failModel [[1, 2]] [[3, 4]]
    (by decide)).1 [Event.fprop] (Err.modelError "fprop failed") rfl

/-- C8: `expr` is deterministic — two runs on equal component, model and
batch return equal results. -/
theorem expr_deterministic (c₁ c₂ : MissingTargetCost) (m₁ m₂ : Model)
    (d₁ d₂ : Matrix × Matrix) (hc : c₁ = c₂) (hm : m₁ = m₂) (hd : d₁ = d₂) :
    c₁.expr m₁ d₁ = c₂.expr m₂ d₂ := by
  subst hc; subst hm; subst hd; rfl

/-- Witness for C8 at a concrete two-run instance. -/
theorem expr_deterministic_witness :
    MissingTargetCost.expr ⟨none⟩ demoModel ([[1, 2]], [[3, 4]])
      = MissingTargetCost.expr ⟨none⟩ demoModel ([[1, 2]], [[3, 4]]) :=
  expr_deterministic ⟨none⟩ ⟨none⟩ demoModel demoModel
    ([[1, 2]], [[3, 4]]) ([[1, 2]], [[3, 4]]) rfl rfl rfl

/-- C9: the component's only state is the dropout configuration fixed at
construction (two components with equal `dropout_args` are equal), and
neither `expr` nor `get_data_specs` changes the component state. -/
theorem component_stateless :
    (∀ (c : MissingTargetCost) (model : Model) (data : Matrix × Matrix),
      (c.exprSt model data).2 = c) ∧
    (∀ (c : MissingTargetCost) (model : Model),
      (c.get_data_specsSt model).2 = c) ∧
    (∀ c₁ c₂ : MissingTargetCost,
      c₁.dropout_args = c₂.dropout_args → c₁ = c₂) := by
  refine ⟨fun _ _ _ => rfl, fun _ _ => rfl, ?_⟩
  intro c₁ c₂ h
  cases c₁
  cases c₂
  cases h
  rfl

/-- Witness for C9 at a concrete component, model and batch. -/
theorem component_stateless_witness :
    ((MissingTargetCost.mk (some [("p", 1)])).exprSt demoModel
        ([[1, 2]], [[3, 4]])).2 = ⟨some [("p", 1)]⟩ ∧
    (MissingTargetCost.mk none) = ⟨none⟩ :=
  ⟨component_stateless.1 ⟨some [("p", 1)]⟩ demoModel ([[1, 2]], [[3, 4]]),
   component_stateless.2.2 ⟨none⟩ ⟨none⟩ rfl⟩

/-- C10: a supplied-but-empty dropout mapping is falsy under the routing
test, so `expr` uses the standard forward pass and behaves exactly like
the component constructed without a dropout configuration. -/
theorem expr_empty_dropout_args (c : MissingTargetCost)
    (h : c.dropout_args = some []) (model : Model) (data : Matrix × Matrix) :
    c.forwardPass model data.1 = ([Event.fprop], model.fprop data.1) ∧
    c.expr model data = MissingTargetCost.expr ⟨none⟩ model data := by
  have hf : ∀ X : Matrix,
      c.forwardPass model X = ([Event.fprop], model.fprop X) := by
    intro X
    simp [MissingTargetCost.forwardPass, dictTruthy, h]
  refine ⟨hf data.1, ?_⟩
  simp only [MissingTargetCost.expr, hf]
  rfl

/-- Witness for C10 at a concrete empty configuration. -/
theorem expr_empty_dropout_args_witness :
    MissingTargetCost.expr ⟨some []⟩ demoModel ([[1, 2]], [[3, 4]])
      = MissingTargetCost.expr ⟨none⟩ demoModel ([[1, 2]], [[3, 4]]) :=
  (expr_empty_dropout_args ⟨some []⟩ rfl demoModel ([[1, 2]], [[3, 4]])).2

end MissingTarget
